import Mathlib

/-!
Verification development for the exam-proctoring application.

The client (React Native, under `frontend/`) is embedded directly from its
source.  The server-side engine (`server.py`: SessionLifecycleManager,
FraudRiskAccumulator, QuestionRandomizer, ScoringEngine) is not part of the
provided sources; those components are modelled from the design document
(`spec.md`), and every such definition carries a doc comment starting with
`Modelled from the spec:`.
-/

/- ===== Client embedding: exam screen (frontend/app/(student)/exam/[id].tsx) ===== -/

/-- Exam metadata as delivered in the `start` response (`ExamData` interface). -/
structure ExamData where
  id : String
  title : String
  duration_minutes : Nat
  total_marks : Nat
deriving DecidableEq, Repr

/-- A question as shown to the student (`Question` interface, key fields). -/
structure ClientQuestion where
  id : String
  question_text : String
  question_type : String
  marks : Nat
deriving DecidableEq, Repr

/-- An existing answer returned when resuming (`Answer` interface). -/
structure ClientAnswer where
  question_id : String
  answer : String
  time_taken_seconds : Nat
deriving DecidableEq, Repr

/-- The body of the `start` response: per the design document it carries
`remaining_seconds` alongside the exam metadata and any existing answers. -/
structure StartResponse where
  session_id : String
  exam : ExamData
  questions : List ClientQuestion
  remaining_seconds : Nat
  existing_answers : List ClientAnswer
deriving DecidableEq, Repr

/-- The client component state set by `startExam`. -/
structure ClientExamState where
  sessionId : String
  exam : ExamData
  questions : List ClientQuestion
  timeLeft : Nat
  answers : List (String × String)
deriving DecidableEq, Repr

/-- Embeds `startExam` (exam/[id].tsx lines 53-79): it stores the session id,
exam and questions from the response, sets `timeLeft` to
`exam.duration_minutes * 60`, and loads `existing_answers` into the answer map
when the list is non-empty.  The response field `remaining_seconds` is not
read anywhere in the handler. -/
def startExam (r : StartResponse) : ClientExamState :=
  { sessionId := r.session_id
    exam := r.exam
    questions := r.questions
    timeLeft := r.exam.duration_minutes * 60
    answers :=
      if 0 < r.existing_answers.length then
        r.existing_answers.map (fun a => (a.question_id, a.answer))
      else [] }

/-- The request body posted to `/student/fraud-event`. -/
structure FraudEventRequest where
  fraud_type : String
  details : String
  risk_score_delta : Nat
deriving DecidableEq, Repr

/-- Embeds `logFraudEvent` (exam/[id].tsx lines 128-142): the `riskDelta`
parameter defaults to 10 when the caller passes none. -/
def logFraudEvent (fraudType details : String) (riskDelta : Option Nat) : FraudEventRequest :=
  { fraud_type := fraudType
    details := details
    risk_score_delta := riskDelta.getD 10 }

/-- React Native application states observed by the `AppState` listener. -/
inductive AppStateStatus
  | active
  | background
  | inactive
deriving DecidableEq, Repr

/-- Embeds the test `nextAppState.match(/inactive|background/)`. -/
def matchesInactiveOrBackground : AppStateStatus → Bool
  | AppStateStatus.active => false
  | AppStateStatus.background => true
  | AppStateStatus.inactive => true

/-- Embeds `handleAppStateChange` (exam/[id].tsx lines 115-126): when the app
goes from active to inactive/background it logs an `app_backgrounded` fraud
event with delta 25; otherwise no event is issued. -/
def handleAppStateChange (current next : AppStateStatus) : Option FraudEventRequest :=
  if current = AppStateStatus.active ∧ matchesInactiveOrBackground next then
    some (logFraudEvent "app_backgrounded" "App moved to background during exam" (some 25))
  else
    none

/-- Embeds the `hardwareBackPress` handler (exam/[id].tsx lines 100-107): it
calls `logFraudEvent` with two arguments, so the delta is the default 10. -/
def backPressFraudEvent : FraudEventRequest :=
  logFraudEvent "back_button_pressed" "Attempted to use back button during exam" none

/-- Embeds the fast-answer check in `handleAnswerSelect` (exam/[id].tsx lines
160-166): an answer taking under 2 seconds logs a `fast_answer` event with
delta 5. -/
def fastAnswerCheck (timeSpent : Nat) : Option FraudEventRequest :=
  if timeSpent < 2 then
    some (logFraudEvent "fast_answer" ("Answered in " ++ toString timeSpent ++ " seconds") (some 5))
  else
    none

/- ===== Client embedding: admin risk colouring ===== -/

/-- Embeds `getRiskColor` from the fraud-alerts screen. -/
def getRiskColor (score : Nat) : String :=
  if score ≥ 70 then "#EF4444"
  else if score ≥ 40 then "#F59E0B"
  else "#10B981"

/-- Embeds `getRiskColor` from live-monitoring.tsx (textually identical to the
fraud-alerts copy). -/
def getRiskColorLive (score : Nat) : String :=
  if score ≥ 70 then "#EF4444"
  else if score ≥ 40 then "#F59E0B"
  else "#10B981"

/-- The risk-level buckets named in the design document (§4.7). -/
inductive RiskLevel
  | LOW
  | MODERATE
  | HIGH
deriving DecidableEq, Repr

/-- The bucket realised by the admin screens' branch structure. -/
def riskBucket (score : Nat) : RiskLevel :=
  if score ≥ 70 then RiskLevel.HIGH
  else if score ≥ 40 then RiskLevel.MODERATE
  else RiskLevel.LOW

/- ===== Client embedding: device info (src/utils/deviceInfo.ts) ===== -/

/-- Platform discriminator (`Platform.OS`). -/
inductive PlatformOS
  | android
  | ios
  | web
deriving DecidableEq, Repr

/-- The ambient inputs `getDeviceInfo` reads: the platform identifiers, the
clock (`Date.now()`), the fresh random suffix
(`Math.random().toString(36).substr(2, 9)`), and whether the identifier
lookup threw (taking the catch branch). -/
structure DeviceEnv where
  androidId : Option String
  iosIdForVendor : Option String
  nowMs : Nat
  randSuffix : String
  throws : Bool
deriving DecidableEq, Repr

/-- Embeds the `device_id` computation of `getDeviceInfo`: android/ios use the
stable platform identifier (with constant fallbacks), web builds
`web-${Date.now()}-${random}`, and the catch branch builds
`fallback-${Date.now()}`. -/
def deviceIdOf (os : PlatformOS) (env : DeviceEnv) : String :=
  if env.throws then
    "fallback-" ++ toString env.nowMs
  else
    match os with
    | PlatformOS.android => env.androidId.getD "android-unknown"
    | PlatformOS.ios => env.iosIdForVendor.getD "ios-unknown"
    | PlatformOS.web => "web-" ++ toString env.nowMs ++ "-" ++ env.randSuffix

/-- Modelled from the spec: §4.1 login compares the stored device fingerprint
with the presented one by plain equality (the authenticator lives in
`server.py`, which is not among the provided sources). -/
def deviceFingerprintCheck (stored current : String) : Bool :=
  stored = current

/- ===== Spec-modelled server engine =====
The session lifecycle manager, fraud-risk accumulator and scoring engine are
implemented in `server.py`, which is not among the provided sources; the
definitions below are modelled from spec.md §§3-5.  The spec serialises all
mutating calls on one session (per-session lock), so a concurrent history over
one session is a sequence of operations; `run` below folds such a sequence. -/

/-- Modelled from the spec: §3 ExamSession status variants. -/
inductive SessionStatus
  | NOT_STARTED
  | IN_PROGRESS
  | COMPLETED
  | AUTO_SUBMITTED
deriving DecidableEq, Repr

/-- The two terminal statuses of §4.3. -/
def SessionStatus.isTerminal : SessionStatus → Bool
  | SessionStatus.COMPLETED => true
  | SessionStatus.AUTO_SUBMITTED => true
  | _ => false

/-- Modelled from the spec: §4.3 submit triggers. -/
inductive Trigger
  | manual
  | timeout
  | risk_threshold
  | multi_event
deriving DecidableEq, Repr

/-- Modelled from the spec: §3 FraudEvent (append-only log entry). -/
structure FraudEvent where
  fraud_type : String
  risk_delta : Nat
  details : String
deriving DecidableEq, Repr

/-- Modelled from the spec: §4.4 canonical policy table.  The event-type
strings are the ones the client under `frontend/` actually sends:
app-backgrounded = 25, back-navigation attempt = 10, fast answer = 5;
camera-check-failure has a variable delta, so it has no fixed entry. -/
def canonicalDelta (fraudType : String) : Option Nat :=
  if fraudType = "app_backgrounded" then some 25
  else if fraudType = "back_button_pressed" then some 10
  else if fraudType = "fast_answer" then some 5
  else none

/-- Modelled from the spec: §3 Question type variants. -/
inductive QuestionType
  | mcq
  | short_answer
deriving DecidableEq, Repr

/-- Modelled from the spec: §3 Question (fields the scoring engine reads). -/
structure ExamQuestion where
  id : String
  qtype : QuestionType
  correct_answer : String
  marks : Nat
deriving DecidableEq, Repr

/-- Modelled from the spec: §4.6 short-answer normalisation (trim, case-fold). -/
def normalizeAnswer (s : String) : String :=
  s.trim.toLower

/-- Looks up the stored answer for a question id. -/
def lookupAnswer (answers : List (String × String)) (qid : String) : Option String :=
  (answers.find? (fun p => p.1 = qid)).map Prod.snd

/-- Modelled from the spec: §4.6 ScoringEngine, one question: unanswered = 0;
single-choice full marks iff the selected option id equals the stored correct
id; short-answer binary match after normalisation. -/
def scoreQuestion (q : ExamQuestion) (ans : Option String) : Nat :=
  match ans with
  | none => 0
  | some v =>
    match q.qtype with
    | QuestionType.mcq => if v = q.correct_answer then q.marks else 0
    | QuestionType.short_answer =>
        if normalizeAnswer v = normalizeAnswer q.correct_answer then q.marks else 0

/-- Modelled from the spec: §4.6 marks_obtained = sum over all questions. -/
def scoreExam (qs : List ExamQuestion) (answers : List (String × String)) : Nat :=
  (qs.map (fun q => scoreQuestion q (lookupAnswer answers q.id))).sum

/-- Modelled from the spec: §3 ExamSession state owned by the
SessionLifecycleManager, extended with the append-only fraud-event log and a
counter of scoring-engine invocations (used to state the once-only scoring
property). -/
structure Session where
  status : SessionStatus
  questions : List ExamQuestion
  totalMarks : Nat
  answers : List (String × String)
  events : List FraudEvent
  risk_score : Nat
  marks_obtained : Option Nat
  scoringRuns : Nat
deriving DecidableEq, Repr

/-- The §6 `submit` response shape {status, marks_obtained, total_marks}. -/
structure SubmitResult where
  status : SessionStatus
  marks_obtained : Nat
  total_marks : Nat
deriving DecidableEq, Repr

/-- Modelled from the spec: §4.3 — COMPLETED only for `manual`, otherwise
AUTO_SUBMITTED. -/
def submitStatus : Trigger → SessionStatus
  | Trigger.manual => SessionStatus.COMPLETED
  | _ => SessionStatus.AUTO_SUBMITTED

/-- Modelled from the spec: §4.3 submit — a session already terminal returns
its frozen result unchanged regardless of trigger; otherwise it transitions,
invokes the ScoringEngine once and freezes marks_obtained. -/
def submit (s : Session) (t : Trigger) : Session × SubmitResult :=
  if s.status.isTerminal then
    (s, { status := s.status, marks_obtained := s.marks_obtained.getD 0,
          total_marks := s.totalMarks })
  else
    let m := scoreExam s.questions s.answers
    let s2 := { s with status := submitStatus t, marks_obtained := some m,
                       scoringRuns := s.scoringRuns + 1 }
    (s2, { status := s2.status, marks_obtained := m, total_marks := s.totalMarks })

/-- Count of the "major" category (app-backgrounded) events in a log (§4.4). -/
def majorCount (events : List FraudEvent) : Nat :=
  events.countP (fun e => e.fraud_type = "app_backgrounded")

/-- Sum of the deltas of a fraud-event log. -/
def sumDeltas (events : List FraudEvent) : Nat :=
  (events.map FraudEvent.risk_delta).sum

/-- Modelled from the spec: §4.4 recordEvent — appends a FraudEvent and
atomically adds its delta to risk_score, server-re-deriving the delta from the
canonical policy table when the event type has a fixed entry; then evaluates
the triggers under the session lock (risk_score ≥ 80 → submit(risk_threshold);
major count ≥ 3 → submit(multi_event)).  Late events after termination are
inert for the session (§5 cancellation, §7, §9). -/
def recordEvent (s : Session) (fraudType : String) (clientDelta : Nat)
    (details : String) : Session :=
  if s.status.isTerminal then s
  else
    let d := (canonicalDelta fraudType).getD clientDelta
    let s2 := { s with
      events := s.events ++ [{ fraud_type := fraudType, risk_delta := d, details := details }]
      risk_score := s.risk_score + d }
    if 80 ≤ s2.risk_score then (submit s2 Trigger.risk_threshold).1
    else if 3 ≤ majorCount s2.events then (submit s2 Trigger.multi_event).1
    else s2

/-- Upsert into the per-(session, question) answer store (§3 AnswerRecord:
later writes overwrite). -/
def upsertAnswer (answers : List (String × String)) (qid v : String) :
    List (String × String) :=
  if answers.any (fun p => p.1 = qid) then
    answers.map (fun p => if p.1 = qid then (qid, v) else p)
  else
    answers ++ [(qid, v)]

/-- Modelled from the spec: §4.3 submitAnswer — only IN_PROGRESS accepts
answers; it upserts the AnswerRecord and forwards time_taken to the
accumulator for fast-answer evaluation (< 2 s → fast_answer event, delta 5). -/
def submitAnswer (s : Session) (qid v : String) (timeTaken : Nat) : Session :=
  if s.status = SessionStatus.IN_PROGRESS then
    let s2 := { s with answers := upsertAnswer s.answers qid v }
    if timeTaken < 2 then
      recordEvent s2 "fast_answer" 5 ("Answered in " ++ toString timeTaken ++ " seconds")
    else s2
  else s

/-- A mutating operation on one session; §5 serialises these, so any
concurrent history over one session is some list of operations. -/
inductive Op
  | record (fraudType : String) (clientDelta : Nat) (details : String)
  | answer (qid v : String) (timeTaken : Nat)
  | submitOp (t : Trigger)
deriving DecidableEq, Repr

/-- Applies one serialised operation. -/
def applyOp (s : Session) : Op → Session
  | Op.record t d det => recordEvent s t d det
  | Op.answer q v tt => submitAnswer s q v tt
  | Op.submitOp t => (submit s t).1

/-- Applies a serialised history of operations. -/
def run (s : Session) (ops : List Op) : Session :=
  ops.foldl applyOp s

/-- Modelled from the spec: §4.3 start — the session created on first
`start()`, entering IN_PROGRESS with empty log, zero risk and no marks. -/
def initialSession (qs : List ExamQuestion) (total : Nat) : Session :=
  { status := SessionStatus.IN_PROGRESS
    questions := qs
    totalMarks := total
    answers := []
    events := []
    risk_score := 0
    marks_obtained := none
    scoringRuns := 0 }

/-- A session state reachable from some freshly started session by some
serialised history. -/
def Reachable (s : Session) : Prop :=
  ∃ qs total ops, run (initialSession qs total) ops = s

/-- The master invariant of the engine: the score is the exact sum of the
logged deltas; an in-progress session is below both auto-submit triggers; a
terminal session has been scored exactly once and carries the frozen marks; a
non-terminal one has never been scored; and sessions exist only from
IN_PROGRESS on. -/
def SessionInv (s : Session) : Prop :=
  s.risk_score = sumDeltas s.events ∧
  (s.status = SessionStatus.IN_PROGRESS → s.risk_score < 80 ∧ majorCount s.events < 3) ∧
  (s.status.isTerminal = true →
    s.scoringRuns = 1 ∧ s.marks_obtained = some (scoreExam s.questions s.answers)) ∧
  (s.status.isTerminal = false → s.scoringRuns = 0 ∧ s.marks_obtained = none) ∧
  s.status ≠ SessionStatus.NOT_STARTED

/- ===== Engine lemmas ===== -/

/-- A non-terminal session that has been created is IN_PROGRESS. -/
theorem status_eq_in_progress (s : Session) (h : SessionInv s)
    (hb : s.status.isTerminal = false) : s.status = SessionStatus.IN_PROGRESS := by
  obtain ⟨-, -, -, -, hns⟩ := h
  cases hstat : s.status <;> simp_all [SessionStatus.isTerminal]

/-- Every trigger's target status is terminal. -/
theorem submitStatus_terminal (t : Trigger) : (submitStatus t).isTerminal = true := by
  cases t <;> rfl

/-- No trigger's target status is IN_PROGRESS. -/
theorem submitStatus_ne_in_progress (t : Trigger) :
    submitStatus t ≠ SessionStatus.IN_PROGRESS := by
  cases t <;> simp [submitStatus]

/-- No trigger's target status is NOT_STARTED. -/
theorem submitStatus_ne_not_started (t : Trigger) :
    submitStatus t ≠ SessionStatus.NOT_STARTED := by
  cases t <;> simp [submitStatus]

/-- Submit on a terminal session is the identity with the frozen result. -/
theorem submit_terminal (s : Session) (t : Trigger) (h : s.status.isTerminal = true) :
    submit s t = (s, { status := s.status, marks_obtained := s.marks_obtained.getD 0,
                       total_marks := s.totalMarks }) := by
  simp [submit, h]

/-- Submit on a live session performs the transition and scores once. -/
theorem submit_active (s : Session) (t : Trigger) (h : s.status.isTerminal = false) :
    (submit s t).1 = { s with status := submitStatus t,
                              marks_obtained := some (scoreExam s.questions s.answers),
                              scoringRuns := s.scoringRuns + 1 } := by
  simp [submit, h]

/-- Submit never changes the risk score. -/
theorem submit_risk (s : Session) (t : Trigger) :
    (submit s t).1.risk_score = s.risk_score := by
  by_cases h : s.status.isTerminal = true
  · rw [submit_terminal s t h]
  · rw [submit_active s t (by simp_all)]

/-- Appending one event adds its delta to the log sum. -/
theorem sumDeltas_append (l : List FraudEvent) (e : FraudEvent) :
    sumDeltas (l ++ [e]) = sumDeltas l + e.risk_delta := by
  simp [sumDeltas]

/-- The log sum is invariant under permutation of the log. -/
theorem sumDeltas_perm (l1 l2 : List FraudEvent) (h : l1.Perm l2) :
    sumDeltas l1 = sumDeltas l2 :=
  (h.map FraudEvent.risk_delta).sum_eq

/-- recordEvent preserves the master invariant. -/
theorem recordEvent_inv (s : Session) (ft : String) (cd : Nat) (det : String)
    (h : SessionInv s) : SessionInv (recordEvent s ft cd det) := by
  obtain ⟨hsum, hip, hterm, hnt, hns⟩ := h
  by_cases hb : s.status.isTerminal = true
  · simp only [recordEvent, hb, if_true]
    exact ⟨hsum, hip, hterm, hnt, hns⟩
  · have hb' : s.status.isTerminal = false := by simp_all
    have hstat := status_eq_in_progress s ⟨hsum, hip, hterm, hnt, hns⟩ hb'
    obtain ⟨hr0, hm0⟩ := hnt hb'
    simp only [recordEvent, hb', Bool.false_eq_true, if_false]
    split_ifs with h80 h3
    · rw [submit_active _ _ (by simpa using hb')]
      refine ⟨?_, ?_, ?_, ?_, ?_⟩
      · simp [sumDeltas_append, hsum]
      · intro hfalse
        simp [submitStatus] at hfalse
      · intro _
        simp [hr0]
      · intro hfalse
        rw [submitStatus_terminal] at hfalse
        cases hfalse
      · simp [submitStatus_ne_not_started]
    · rw [submit_active _ _ (by simpa using hb')]
      refine ⟨?_, ?_, ?_, ?_, ?_⟩
      · simp [sumDeltas_append, hsum]
      · intro hfalse
        simp [submitStatus] at hfalse
      · intro _
        simp [hr0]
      · intro hfalse
        rw [submitStatus_terminal] at hfalse
        cases hfalse
      · simp [submitStatus_ne_not_started]
    · refine ⟨?_, ?_, ?_, ?_, ?_⟩
      · simp [sumDeltas_append, hsum]
      · intro _
        simp only [not_le] at h80 h3
        refine ⟨?_, ?_⟩
        · simpa using h80
        · simpa using h3
      · intro hfalse
        simp [hb'] at hfalse
      · intro _
        exact ⟨hr0, hm0⟩
      · simpa using hns

/-- submit preserves the master invariant. -/
theorem submit_inv (s : Session) (t : Trigger) (h : SessionInv s) :
    SessionInv (submit s t).1 := by
  obtain ⟨hsum, hip, hterm, hnt, hns⟩ := h
  by_cases hb : s.status.isTerminal = true
  · rw [submit_terminal s t hb]
    exact ⟨hsum, hip, hterm, hnt, hns⟩
  · have hb' : s.status.isTerminal = false := by simp_all
    obtain ⟨hr0, hm0⟩ := hnt hb'
    rw [submit_active s t hb']
    refine ⟨hsum, ?_, ?_, ?_, ?_⟩
    · intro hfalse
      simp at hfalse
      exact absurd hfalse (submitStatus_ne_in_progress t)
    · intro _
      simp [hr0]
    · intro hfalse
      simp [submitStatus_terminal] at hfalse
    · simp [submitStatus_ne_not_started]

/-- submitAnswer preserves the master invariant. -/
theorem submitAnswer_inv (s : Session) (q v : String) (tt : Nat) (h : SessionInv s) :
    SessionInv (submitAnswer s q v tt) := by
  obtain ⟨hsum, hip, hterm, hnt, hns⟩ := h
  by_cases hs : s.status = SessionStatus.IN_PROGRESS
  · have hb' : s.status.isTerminal = false := by rw [hs]; rfl
    obtain ⟨hr0, hm0⟩ := hnt hb'
    have h2 : SessionInv { s with answers := upsertAnswer s.answers q v } := by
      refine ⟨hsum, ?_, ?_, ?_, ?_⟩
      · intro _
        exact hip hs
      · intro hfalse
        simp [hb'] at hfalse
      · intro _
        exact ⟨hr0, hm0⟩
      · simp [hs]
    rw [hs] at h2
    by_cases htt : tt < 2
    · simp only [submitAnswer, hs, if_true, htt]
      exact recordEvent_inv _ _ _ _ h2
    · simp only [submitAnswer, hs, if_true, htt, if_false]
      exact h2
  · simp only [submitAnswer, hs, if_false]
    exact ⟨hsum, hip, hterm, hnt, hns⟩

/-- Every serialised operation preserves the master invariant. -/
theorem applyOp_inv (s : Session) (op : Op) (h : SessionInv s) :
    SessionInv (applyOp s op) := by
  cases op with
  | record t d det => exact recordEvent_inv s t d det h
  | answer q v tt => exact submitAnswer_inv s q v tt h
  | submitOp t => exact submit_inv s t h

/-- Histories preserve the master invariant. -/
theorem run_inv (ops : List Op) (s : Session) (h : SessionInv s) :
    SessionInv (run s ops) := by
  induction ops generalizing s with
  | nil => exact h
  | cons op rest ih => exact ih (applyOp s op) (applyOp_inv s op h)

/-- A freshly started session satisfies the master invariant. -/
theorem initialSession_inv (qs : List ExamQuestion) (total : Nat) :
    SessionInv (initialSession qs total) := by
  refine ⟨rfl, ?_, ?_, ?_, ?_⟩
  · intro _
    exact ⟨by simp [initialSession], by simp [initialSession, majorCount]⟩
  · intro hfalse
    simp [initialSession, SessionStatus.isTerminal] at hfalse
  · intro _
    exact ⟨rfl, rfl⟩
  · simp [initialSession]

/-- Every reachable session satisfies the master invariant. -/
theorem reachable_inv (s : Session) (h : Reachable s) : SessionInv s := by
  obtain ⟨qs, total, ops, hrun⟩ := h
  rw [← hrun]
  exact run_inv ops _ (initialSession_inv qs total)

/-- recordEvent never decreases the risk score. -/
theorem recordEvent_risk_mono (s : Session) (ft : String) (cd : Nat) (det : String) :
    s.risk_score ≤ (recordEvent s ft cd det).risk_score := by
  by_cases hb : s.status.isTerminal = true
  · simp [recordEvent, hb]
  · have hb' : s.status.isTerminal = false := by simp_all
    simp only [recordEvent, hb', Bool.false_eq_true, if_false]
    split_ifs with h80 h3
    · rw [submit_risk]
      simp
    · rw [submit_risk]
      simp
    · simp

/-- submitAnswer never decreases the risk score. -/
theorem submitAnswer_risk_mono (s : Session) (q v : String) (tt : Nat) :
    s.risk_score ≤ (submitAnswer s q v tt).risk_score := by
  by_cases hs : s.status = SessionStatus.IN_PROGRESS
  · by_cases htt : tt < 2
    · simp only [submitAnswer, hs, if_true, htt]
      exact recordEvent_risk_mono
        { status := SessionStatus.IN_PROGRESS, questions := s.questions,
          totalMarks := s.totalMarks, answers := upsertAnswer s.answers q v,
          events := s.events, risk_score := s.risk_score,
          marks_obtained := s.marks_obtained, scoringRuns := s.scoringRuns }
        "fast_answer" 5 ("Answered in " ++ toString tt ++ " seconds")
    · simp only [submitAnswer, hs, if_true, htt, if_false]
      exact Nat.le_refl _
  · simp only [submitAnswer, hs, if_false]
    exact Nat.le_refl _

/-- No serialised operation ever decreases the risk score. -/
theorem applyOp_risk_mono (s : Session) (op : Op) :
    s.risk_score ≤ (applyOp s op).risk_score := by
  cases op with
  | record t d det => exact recordEvent_risk_mono s t d det
  | answer q v tt => exact submitAnswer_risk_mono s q v tt
  | submitOp t => exact (submit_risk s t).ge

/-- Histories split at a client reconnect compose: the engine state after the
whole history is the state reached by resuming from the persisted state. -/
theorem run_append (s : Session) (ops1 ops2 : List Op) :
    run s (ops1 ++ ops2) = run (run s ops1) ops2 := by
  simp [run, List.foldl_append]

/- ===== Spec-modelled QuestionRandomizer ===== -/

/-- Modelled from the spec: §4.2 seed derivation — a deterministic hash
standing in for the cryptographic hash of student_id‖exam_id (the randomizer
lives in `server.py`, which is not among the provided sources). -/
def hashStep (h : Nat) (c : Char) : Nat :=
  (h * 131 + c.toNat) % 4294967296

/-- Folds the hash step over a string. -/
def hashString (s : String) : Nat :=
  s.data.foldl hashStep 5381

/-- Modelled from the spec: the permutation seed is the hash of
student_id‖exam_id and of nothing else — no timestamp, no call counter. -/
def seedOf (studentId examId : String) : Nat :=
  hashString (studentId ++ "||" ++ examId)

/-- One step of the deterministic pseudo-random stream drawn from the seed. -/
def lcgNext (x : Nat) : Nat :=
  (x * 1103515245 + 12345) % 2147483648

/-- Removes the element at an index, returning it and the remainder. -/
def extractIdx {α : Type} : Nat → List α → Option (α × List α)
  | _, [] => none
  | 0, a :: rest => some (a, rest)
  | n + 1, a :: rest => (extractIdx n rest).map (fun p => (p.1, a :: p.2))

/-- Extraction at an index below the length always succeeds. -/
theorem extractIdx_isSome {α : Type} (n : Nat) (l : List α) (h : n < l.length) :
    (extractIdx n l).isSome := by
  induction l generalizing n with
  | nil => simp at h
  | cons a rest ih =>
    cases n with
    | zero => simp [extractIdx]
    | succ m =>
      have h2 := ih m (by simpa using h)
      cases hx : extractIdx m rest with
      | none =>
        rw [hx] at h2
        simp at h2
      | some p => simp [extractIdx, hx]

/-- Extraction shortens the list by one. -/
theorem extractIdx_length {α : Type} (n : Nat) (l : List α) (x : α) (rest : List α)
    (h : extractIdx n l = some (x, rest)) : rest.length + 1 = l.length := by
  induction l generalizing n x rest with
  | nil => simp [extractIdx] at h
  | cons a tail ih =>
    cases n with
    | zero =>
      simp [extractIdx] at h
      obtain ⟨h1, h2⟩ := h
      simp [← h2]
    | succ m =>
      cases hx : extractIdx m tail with
      | none => simp [extractIdx, hx] at h
      | some p =>
        obtain ⟨y, tl⟩ := p
        simp [extractIdx, hx] at h
        obtain ⟨h1, h2⟩ := h
        subst h1
        subst h2
        have := ih m y tl hx
        simp
        omega

/-- Extraction is a permutation split: the list is a permutation of the
extracted element consed onto the remainder. -/
theorem extractIdx_perm {α : Type} (n : Nat) (l : List α) (x : α) (rest : List α)
    (h : extractIdx n l = some (x, rest)) : l.Perm (x :: rest) := by
  induction l generalizing n x rest with
  | nil => simp [extractIdx] at h
  | cons a tail ih =>
    cases n with
    | zero =>
      simp [extractIdx] at h
      obtain ⟨h1, h2⟩ := h
      rw [h1, h2]
    | succ m =>
      cases hx : extractIdx m tail with
      | none => simp [extractIdx, hx] at h
      | some p =>
        obtain ⟨y, tl⟩ := p
        simp [extractIdx, hx] at h
        obtain ⟨h1, h2⟩ := h
        subst h1
        subst h2
        exact ((ih m y tl hx).cons a).trans (List.Perm.swap y a tl)

/-- Modelled from the spec: §4.2 — the question (or option) order is a
permutation of the input drawn deterministically from the seed alone
(seeded Fisher–Yates over the remaining elements). -/
def seededShuffle {α : Type} (seed : Nat) (l : List α) : List α :=
  match hx : extractIdx (seed % l.length) l with
  | none => []
  | some p => p.1 :: seededShuffle (lcgNext seed) p.2
termination_by l.length
decreasing_by
  have := extractIdx_length (seed % l.length) l p.1 p.2 (by rw [hx])
  omega

/-- The shuffle of a list is a permutation of it. -/
theorem seededShuffle_perm {α : Type} :
    ∀ (n : Nat) (l : List α), l.length ≤ n → ∀ seed, (seededShuffle seed l).Perm l := by
  intro n
  induction n with
  | zero =>
    intro l hl seed
    have : l = [] := List.length_eq_zero.mp (Nat.le_zero.mp hl)
    subst this
    rw [seededShuffle]
    split
    · exact List.Perm.nil
    · next p hp => simp [extractIdx] at hp
  | succ m ih =>
    intro l hl seed
    cases hl0 : l with
    | nil =>
      rw [seededShuffle]
      split
      · exact List.Perm.nil
      · next p hp => simp [extractIdx] at hp
    | cons a tail =>
      subst hl0
      have hlen : seed % (a :: tail).length < (a :: tail).length :=
        Nat.mod_lt _ (by simp)
      have hsome := extractIdx_isSome (seed % (a :: tail).length) (a :: tail) hlen
      rw [seededShuffle]
      cases hx : extractIdx (seed % (a :: tail).length) (a :: tail) with
      | none =>
        rw [hx] at hsome
        simp at hsome
      | some p =>
        obtain ⟨x, rest⟩ := p
        have hrest : rest.length + 1 = (a :: tail).length :=
          extractIdx_length _ _ _ _ hx
        have hrec : (seededShuffle (lcgNext seed) rest).Perm rest := by
          apply ih rest
          simp at hrest hl
          omega
        exact ((hrec.cons x).trans (extractIdx_perm _ _ _ _ hx).symm)

/-- A question as the randomizer sees it: its id and its MCQ option ids. -/
structure RandQuestion where
  id : String
  options : List String
deriving DecidableEq, Repr

/-- Modelled from the spec: §4.2 `order(student_id, exam_id, question_set)` —
permutes the question order from the seed derived from student and exam
identity, and permutes each question's MCQ option order from a seed derived
from the same identity and the question id. -/
def order (studentId examId : String) (qs : List RandQuestion) : List RandQuestion :=
  (seededShuffle (seedOf studentId examId) qs).map
    (fun q => { q with
      options := seededShuffle (hashString (studentId ++ "||" ++ examId ++ "||" ++ q.id)) q.options })

/-- Modelled from the spec: the randomizer as reachable from a client call,
which also has the wall clock and a per-session call counter in scope; §4.2
requires the ordering to be a function of (student_id, exam_id, question_set)
only, so the result ignores both. -/
def orderAt (studentId examId : String) (qs : List RandQuestion)
    (nowMs callSeq : Nat) : List RandQuestion :=
  order studentId examId qs

/- ===== Helper lemmas on strings ===== -/

/-- Strings with equal character data are equal. -/
theorem string_data_inj (s t : String) (h : s.data = t.data) : s = t := by
  cases s
  cases t
  exact congrArg String.mk h

/-- Appending on the left is cancellative for strings. -/
theorem string_append_cancel_left (p a b : String) (h : p ++ a = p ++ b) : a = b := by
  apply string_data_inj
  have hd := congrArg String.data h
  rw [String.data_append, String.data_append] at hd
  exact List.append_cancel_left hd

/- ===== Claim C1 ===== -/

/-- A start response for a resumed session: 300 seconds remain on a 60-minute
exam, and one answer already exists. -/
def resumedStartResponse : StartResponse :=
  { session_id := "sess-1"
    exam := { id := "exam-1", title := "Midterm", duration_minutes := 60, total_marks := 10 }
    questions := [{ id := "q1", question_text := "Q1", question_type := "mcq", marks := 2 }]
    remaining_seconds := 300
    existing_answers := [{ question_id := "q1", answer := "b", time_taken_seconds := 30 }] }

/-- C1: the claim says the countdown the exam screen starts after a resumed
start() equals the session's remaining_seconds rather than
exam.duration_minutes × 60.  The client code does the opposite: `startExam`
sets `timeLeft` to `exam.duration_minutes * 60` and never reads
`remaining_seconds`.  Evaluated at a resumed response with 300 seconds left on
a 60-minute exam, the countdown starts at 3600, not 300 (the stored answers
are loaded, as the claim says). -/
theorem C1_resumed_countdown_uses_full_duration :
    (startExam resumedStartResponse).timeLeft = 3600 ∧
    resumedStartResponse.remaining_seconds = 300 ∧
    (startExam resumedStartResponse).timeLeft ≠ resumedStartResponse.remaining_seconds ∧
    (startExam resumedStartResponse).answers = [("q1", "b")] := by
  refine ⟨rfl, rfl, by decide, by decide⟩

/- ===== Claim C5 ===== -/

/-- C5: every fraud event issued by the exam screen carries the canonical
delta for its type: app-backgrounded events carry 25, back-navigation
attempts carry 10 (the `logFraudEvent` default), and fast-answer events carry
5 and are issued exactly when the answer took under 2 seconds. -/
theorem C5_client_fraud_deltas_canonical :
    (∀ cur next ev, handleAppStateChange cur next = some ev →
      ev.fraud_type = "app_backgrounded" ∧ ev.risk_score_delta = 25) ∧
    (backPressFraudEvent.fraud_type = "back_button_pressed" ∧
      backPressFraudEvent.risk_score_delta = 10) ∧
    (∀ t ev, fastAnswerCheck t = some ev →
      ev.fraud_type = "fast_answer" ∧ ev.risk_score_delta = 5 ∧ t < 2) := by
  refine ⟨?_, ⟨rfl, rfl⟩, ?_⟩
  · intro cur next ev h
    by_cases hc : cur = AppStateStatus.active ∧ matchesInactiveOrBackground next
    · obtain ⟨hc1, hc2⟩ := hc
      simp only [handleAppStateChange, hc1, hc2, and_self, if_true, Option.some.injEq] at h
      rw [← h]
      exact ⟨rfl, rfl⟩
    · simp [handleAppStateChange, hc] at h
  · intro t ev h
    by_cases ht : t < 2
    · simp only [fastAnswerCheck, ht, if_true, Option.some.injEq] at h
      rw [← h]
      exact ⟨rfl, rfl, ht⟩
    · simp [fastAnswerCheck, ht] at h

/-- Witness for C5 at concrete inputs: backgrounding from active yields the
25-delta event and a 0-second answer yields the 5-delta event. -/
theorem C5_witness :
    ((logFraudEvent "app_backgrounded" "App moved to background during exam" (some 25)).fraud_type
        = "app_backgrounded" ∧
      (logFraudEvent "app_backgrounded" "App moved to background during exam" (some 25)).risk_score_delta
        = 25) ∧
    ((logFraudEvent "fast_answer" "Answered in 0 seconds" (some 5)).fraud_type = "fast_answer" ∧
      (logFraudEvent "fast_answer" "Answered in 0 seconds" (some 5)).risk_score_delta = 5 ∧
      0 < 2) :=
  ⟨C5_client_fraud_deltas_canonical.1 AppStateStatus.active AppStateStatus.background _ rfl,
   C5_client_fraud_deltas_canonical.2.2 0 _ rfl⟩

/- ===== Claim C8 ===== -/

/-- C8: the risk-level bucket is a total function of the score with the stated
boundaries, and both admin screens colour HIGH exactly at score ≥ 70 and
MODERATE exactly at 40 ≤ score < 70 (for the integer scores the engine
produces, 40 ≤ s ≤ 69 and 40 ≤ s < 70 coincide). -/
theorem C8_risk_bucket_boundaries (s : Nat) :
    (riskBucket s = RiskLevel.LOW ↔ s < 40) ∧
    (riskBucket s = RiskLevel.MODERATE ↔ 40 ≤ s ∧ s ≤ 69) ∧
    (riskBucket s = RiskLevel.HIGH ↔ 70 ≤ s) ∧
    getRiskColorLive s = getRiskColor s ∧
    (getRiskColor s = "#EF4444" ↔ 70 ≤ s) ∧
    (getRiskColor s = "#F59E0B" ↔ 40 ≤ s ∧ s < 70) ∧
    (getRiskColor s = "#10B981" ↔ s < 40) := by
  unfold riskBucket getRiskColor getRiskColorLive
  split_ifs with h1 h2 <;> refine ⟨?_, ?_, ?_, rfl, ?_, ?_, ?_⟩ <;> simp <;> omega

/- ===== Claim C10 ===== -/

/-- C10 as stated is false on the error fallback path: there the device id is
`fallback-${Date.now()}` and embeds no random string, so two calls at the same
millisecond with different fresh random values return the same id. -/
theorem C10_counterexample :
    deviceIdOf PlatformOS.web
        { androidId := none, iosIdForVendor := none, nowMs := 5,
          randSuffix := "aaaaaaaaa", throws := true }
      = deviceIdOf PlatformOS.web
        { androidId := none, iosIdForVendor := none, nowMs := 5,
          randSuffix := "bbbbbbbbb", throws := true }
    ∧ ("aaaaaaaaa" : String) ≠ "bbbbbbbbb" :=
  ⟨rfl, by decide⟩

/-- C10 (amended): on web the returned device_id embeds the current time and
the fresh random string, so two calls with different fresh random values (even
in the same millisecond) return different device ids, and an equality-based
device-fingerprint check on such a second login can never pass; on the error
fallback path the id embeds the current time only. -/
theorem C10_web_device_id_fresh (env1 env2 : DeviceEnv)
    (h1 : env1.throws = false) (h2 : env2.throws = false)
    (hn : env1.nowMs = env2.nowMs) (hr : env1.randSuffix ≠ env2.randSuffix) :
    deviceIdOf PlatformOS.web env1 ≠ deviceIdOf PlatformOS.web env2 ∧
    (∀ env : DeviceEnv, env.throws = true →
      deviceIdOf PlatformOS.web env = "fallback-" ++ toString env.nowMs) ∧
    deviceFingerprintCheck (deviceIdOf PlatformOS.web env1)
      (deviceIdOf PlatformOS.web env2) = false := by
  have hne : deviceIdOf PlatformOS.web env1 ≠ deviceIdOf PlatformOS.web env2 := by
    simp only [deviceIdOf, h1, h2, Bool.false_eq_true, if_false]
    rw [hn]
    intro heq
    apply hr
    exact string_append_cancel_left _ _ _ heq
  refine ⟨hne, ?_, ?_⟩
  · intro env henv
    simp [deviceIdOf, henv]
  · simp only [deviceFingerprintCheck]
    simpa using hne

/-- Witness for C10 at two concrete web environments differing only in the
fresh random suffix. -/
theorem C10_witness :
    deviceIdOf PlatformOS.web
        { androidId := none, iosIdForVendor := none, nowMs := 77,
          randSuffix := "aaaaaaaaa", throws := false }
      ≠ deviceIdOf PlatformOS.web
        { androidId := none, iosIdForVendor := none, nowMs := 77,
          randSuffix := "bbbbbbbbb", throws := false } ∧
    (∀ env : DeviceEnv, env.throws = true →
      deviceIdOf PlatformOS.web env = "fallback-" ++ toString env.nowMs) ∧
    deviceFingerprintCheck
        (deviceIdOf PlatformOS.web
          { androidId := none, iosIdForVendor := none, nowMs := 77,
            randSuffix := "aaaaaaaaa", throws := false })
        (deviceIdOf PlatformOS.web
          { androidId := none, iosIdForVendor := none, nowMs := 77,
            randSuffix := "bbbbbbbbb", throws := false }) = false :=
  C10_web_device_id_fresh _ _ rfl rfl rfl (by decide)

/- ===== Claim C2 ===== -/

/-- C2: in every reachable session the risk score equals the exact sum of the
risk deltas of all FraudEvents appended so far, the score never decreases
under any further operation, and the sum — hence the final score — is the
same for any interleaving (permutation) of the same events. -/
theorem C2_risk_score_is_event_sum (s : Session) (h : Reachable s) :
    s.risk_score = sumDeltas s.events ∧
    (∀ op, s.risk_score ≤ (applyOp s op).risk_score) ∧
    (∀ l : List FraudEvent, l.Perm s.events → sumDeltas l = s.risk_score) := by
  have hinv := reachable_inv s h
  refine ⟨hinv.1, fun op => applyOp_risk_mono s op, fun l hp => ?_⟩
  rw [sumDeltas_perm l s.events hp, hinv.1]

/-- Witness for C2 on the one-event history. -/
theorem C2_witness :
    (run (initialSession [] 0) [Op.record "app_backgrounded" 0 "bg"]).risk_score
      = sumDeltas (run (initialSession [] 0) [Op.record "app_backgrounded" 0 "bg"]).events :=
  (C2_risk_score_is_event_sum _ ⟨[], 0, [Op.record "app_backgrounded" 0 "bg"], rfl⟩).1

/- ===== Claim C3 ===== -/

/-- C3: no reachable session is IN_PROGRESS with risk_score ≥ 80 — the
threshold trigger auto-submits within the same recordEvent call; in
particular the camera-delta history 25, 30, 30 ends AUTO_SUBMITTED with
score 85 without any student action. -/
theorem C3_risk_threshold_auto_submits (s : Session) (h : Reachable s) :
    (s.status = SessionStatus.IN_PROGRESS → s.risk_score < 80) ∧
    (run (initialSession [] 10)
        [Op.record "camera_check_failure" 25 "c1",
         Op.record "camera_check_failure" 30 "c2",
         Op.record "camera_check_failure" 30 "c3"]).status = SessionStatus.AUTO_SUBMITTED ∧
    (run (initialSession [] 10)
        [Op.record "camera_check_failure" 25 "c1",
         Op.record "camera_check_failure" 30 "c2",
         Op.record "camera_check_failure" 30 "c3"]).risk_score = 85 := by
  have hinv := reachable_inv s h
  exact ⟨fun hs => (hinv.2.1 hs).1, by decide, by decide⟩

/-- Witness for C3 on a live below-threshold session. -/
theorem C3_witness :
    (run (initialSession [] 0) [Op.record "camera_check_failure" 30 "c"]).risk_score < 80 :=
  (C3_risk_threshold_auto_submits _ ⟨[], 0, [Op.record "camera_check_failure" 30 "c"], rfl⟩).1 rfl

/- ===== Claim C4 ===== -/

/-- C4: for every event type with a fixed canonical delta, recordEvent
replaces the client-supplied delta with the canonical one: the resulting
session is independent of the value the client sent, and on a live session
the appended event carries the canonical delta, which is exactly what is
added to the score. -/
theorem C4_client_delta_ignored (s : Session) (fraudType : String) (c : Nat)
    (hc : canonicalDelta fraudType = some c) (d1 d2 : Nat) (details : String) :
    recordEvent s fraudType d1 details = recordEvent s fraudType d2 details ∧
    (s.status.isTerminal = false →
      (recordEvent s fraudType d1 details).events
          = s.events ++ [{ fraud_type := fraudType, risk_delta := c, details := details }] ∧
      (recordEvent s fraudType d1 details).risk_score = s.risk_score + c) := by
  constructor
  · simp [recordEvent, hc]
  · intro hb
    simp only [recordEvent, hc, Option.getD_some, hb, Bool.false_eq_true, if_false]
    split_ifs with h80 h3
    · rw [submit_active _ _ (by simpa using hb)]
      exact ⟨by simp, by simp⟩
    · rw [submit_active _ _ (by simpa using hb)]
      exact ⟨by simp, by simp⟩
    · exact ⟨by simp, by simp⟩

/-- Witness for C4: client deltas 1 and 99 for an app-backgrounded event
produce identical sessions. -/
theorem C4_witness :
    recordEvent (initialSession [] 0) "app_backgrounded" 1 "bg"
      = recordEvent (initialSession [] 0) "app_backgrounded" 99 "bg" :=
  (C4_client_delta_ignored (initialSession [] 0) "app_backgrounded" 25 rfl 1 99 "bg").1

/- ===== Claim C6 ===== -/

/-- C6: in every reachable state an IN_PROGRESS session has fewer than 3
app-backgrounded events — the multi_event trigger auto-submits at the third;
the count lives in the session's persisted event log, so a history split at a
client reconnect composes, and a third backgrounding recorded after a
reconnect still drives the session to AUTO_SUBMITTED. -/
theorem C6_major_count_trigger (s : Session) (h : Reachable s) (ops1 ops2 : List Op) :
    (s.status = SessionStatus.IN_PROGRESS → majorCount s.events < 3) ∧
    run s (ops1 ++ ops2) = run (run s ops1) ops2 ∧
    (run (run (initialSession [] 0)
        [Op.record "app_backgrounded" 25 "bg1", Op.record "app_backgrounded" 25 "bg2"])
        [Op.record "app_backgrounded" 25 "bg3"]).status = SessionStatus.AUTO_SUBMITTED := by
  have hinv := reachable_inv s h
  exact ⟨fun hs => (hinv.2.1 hs).2, run_append s ops1 ops2, by decide⟩

/-- Witness for C6 on a live one-backgrounding session. -/
theorem C6_witness :
    majorCount (run (initialSession [] 0) [Op.record "app_backgrounded" 25 "bg1"]).events < 3 :=
  (C6_major_count_trigger _ ⟨[], 0, [Op.record "app_backgrounded" 25 "bg1"], rfl⟩ [] []).1 rfl

/- ===== Claim C7 ===== -/

/-- C7: submit is idempotent — on a reachable terminal session any further
submit, whatever the trigger, returns the unchanged session with the frozen
{status, marks, total} result, the scoring engine has run exactly once (and
the extra submit does not run it again), the frozen marks are the score of
the frozen answers, and every further operation leaves the session unchanged. -/
theorem C7_submit_idempotent (s : Session) (h : Reachable s)
    (ht : s.status.isTerminal = true) (t : Trigger) :
    submit s t = (s, { status := s.status,
                       marks_obtained := scoreExam s.questions s.answers,
                       total_marks := s.totalMarks }) ∧
    s.scoringRuns = 1 ∧
    (submit s t).1.scoringRuns = 1 ∧
    s.marks_obtained = some (scoreExam s.questions s.answers) ∧
    (∀ op, applyOp s op = s) := by
  have hinv := reachable_inv s h
  obtain ⟨hm1, hm2⟩ := hinv.2.2.1 ht
  have hsub := submit_terminal s t ht
  refine ⟨?_, hm1, ?_, hm2, ?_⟩
  · rw [hsub, hm2]
    simp
  · rw [hsub]
    exact hm1
  · intro op
    cases op with
    | record ft d det =>
      simp [applyOp, recordEvent, ht]
    | answer q v tt =>
      have hnip : s.status ≠ SessionStatus.IN_PROGRESS := by
        intro hs
        rw [hs] at ht
        simp [SessionStatus.isTerminal] at ht
      simp [applyOp, submitAnswer, hnip]
    | submitOp t2 =>
      simp [applyOp, submit_terminal s t2 ht]

/-- Witness for C7 on a concrete manually submitted session. -/
theorem C7_witness :
    submit (run (initialSession [] 0) [Op.submitOp Trigger.manual]) Trigger.timeout
      = (run (initialSession [] 0) [Op.submitOp Trigger.manual],
         { status := (run (initialSession [] 0) [Op.submitOp Trigger.manual]).status,
           marks_obtained :=
             scoreExam (run (initialSession [] 0) [Op.submitOp Trigger.manual]).questions
               (run (initialSession [] 0) [Op.submitOp Trigger.manual]).answers,
           total_marks := (run (initialSession [] 0) [Op.submitOp Trigger.manual]).totalMarks }) :=
  (C7_submit_idempotent _ ⟨[], 0, [Op.submitOp Trigger.manual], rfl⟩ rfl Trigger.timeout).1

/- ===== Claim C9 ===== -/

/-- C9: the ordering is a deterministic function of (student_id, exam_id,
question_set) only — the clock and call counter in scope at the call site are
ignored; the question ordering is a permutation of the question set and each
question's option list a permutation of its original options; and the seed is
derived from the hash of student_id‖exam_id alone, so two distinct students
feed the hash distinct inputs. -/
theorem C9_randomizer_deterministic (studentId examId : String)
    (qs : List RandQuestion) (t1 c1 t2 c2 : Nat) :
    orderAt studentId examId qs t1 c1 = orderAt studentId examId qs t2 c2 ∧
    ((order studentId examId qs).map RandQuestion.id).Perm (qs.map RandQuestion.id) ∧
    seedOf studentId examId = hashString (studentId ++ "||" ++ examId) ∧
    (∀ q, q ∈ order studentId examId qs → ∃ q0, q0 ∈ qs ∧ q.id = q0.id ∧
      q.options.Perm q0.options) := by
  have hperm : (seededShuffle (seedOf studentId examId) qs).Perm qs :=
    seededShuffle_perm qs.length qs (le_refl _) _
  refine ⟨rfl, ?_, rfl, ?_⟩
  · have h2 : (order studentId examId qs).map RandQuestion.id
        = (seededShuffle (seedOf studentId examId) qs).map RandQuestion.id := by
      simp only [order, List.map_map]
      rfl
    rw [h2]
    exact hperm.map _
  · intro q hq
    simp only [order, List.mem_map] at hq
    obtain ⟨q1, hq1, hq2⟩ := hq
    refine ⟨q1, hperm.mem_iff.mp hq1, ?_, ?_⟩
    · rw [← hq2]
    · rw [← hq2]
      exact seededShuffle_perm q1.options.length q1.options (le_refl _) _

/-- Witness for C9: the same ordering results at two different call times and
sequence numbers. -/
theorem C9_witness :
    orderAt "s1" "e1" [{ id := "q1", options := ["a", "b"] }] 0 0
      = orderAt "s1" "e1" [{ id := "q1", options := ["a", "b"] }] 123 7 :=
  (C9_randomizer_deterministic "s1" "e1" [{ id := "q1", options := ["a", "b"] }] 0 0 123 7).1
